import Mathlib

/-!
Verification of the playlist aggregation pipeline of
`yt-playlist-length-calc` (src/main.go): duration parsing
(`getDurationSec`), playlist-id extraction (`getPlaylistId`), paginated
listing, batched detail fetching (`getPlaylistVideos`) and aggregation
(`analyzePlaylist`), shallowly embedded in Lean.
-/

namespace YTCalc

/-! ## Machine integers

Go `int` is a 64-bit two's complement integer on the target platform;
arithmetic wraps around.  `wrap64` reduces an unbounded integer to the
value a Go `int` would hold. -/

def int64Max : Int := 9223372036854775807

def wrap64 (x : Int) : Int :=
  (x + 9223372036854775808) % 18446744073709551616 - 9223372036854775808

/-! ## Duration parser (`getDurationSec`, src/main.go lines 49-78)

The Go code runs `regexp.MustCompile("PT(?:(\\d+)H)?(?:(\\d+)M)?(?:(\\d+)S)?")`
`.FindStringSubmatch(isoDuration)`.  Go's regexp gives leftmost-first
(Perl-like) semantics: a match must begin with the literal `PT`, and
since everything after `PT` is optional, a match exists exactly at every
occurrence of `PT`; the leftmost one is chosen.  At that spot each group
`(?:(\d+)U)?` captures the maximal digit run iff it is non-empty and
directly followed by the unit letter `U`; otherwise the group is skipped
with the position unchanged (a shorter digit run can never help because
the character after it would be a digit, not the unit letter).
`FindStringSubmatch` returns `nil` when `PT` does not occur at all; the
Go code then indexes `matches[1]` and panics, which we model as `none`. -/

/-- Position of the leftmost regex match: the tail of the input after
the first occurrence of the two-character literal `PT`, or `none` if
`PT` does not occur (Go: `FindStringSubmatch` returns `nil`). -/
def findPT : List Char → Option (List Char)
  | [] => none
  | [_] => none
  | a :: b :: rest =>
    if a = 'P' ∧ b = 'T' then some rest else findPT (b :: rest)

/-- One optional unit group `(?:(\d+)U)?` of the Go regex: capture the
maximal digit run iff it is non-empty and immediately followed by the
unit character, else capture nothing and leave the input unchanged.
Returns (captured digits, remaining input). -/
def matchGroup (u : Char) (cs : List Char) : List Char × List Char :=
  match cs.dropWhile Char.isDigit with
  | c :: rest =>
    if cs.takeWhile Char.isDigit ≠ [] ∧ c = u then
      (cs.takeWhile Char.isDigit, rest)
    else ([], cs)
  | [] => ([], cs)

/-- The three submatches `matches[1]`, `matches[2]`, `matches[3]` of the
Go regex, taken in sequence after the literal `PT`. -/
def parseGroups (cs : List Char) : List Char × List Char × List Char :=
  ((matchGroup 'H' cs).1,
   (matchGroup 'M' (matchGroup 'H' cs).2).1,
   (matchGroup 'S' (matchGroup 'M' (matchGroup 'H' cs).2).2).1)

/-- Numeric value of a digit string (the value `strconv.Atoi` computes). -/
def digitsVal (cs : List Char) : Nat :=
  cs.foldl (fun a c => a * 10 + (c.toNat - 48)) 0

/-- Go `strconv.Atoi` on a non-empty all-digit string: the value when it
fits a signed 64-bit int, an error (`none`) on range overflow. -/
def atoiDigits (cs : List Char) : Option Int :=
  if digitsVal cs ≤ 9223372036854775807 then some (digitsVal cs) else none

/-- One `if matches[i] != "" { v, err = strconv.Atoi(...) }` block of the
Go code: an absent capture leaves the variable at zero; a present
capture is converted, `none` signalling the Atoi error branch. -/
def groupSec (cap : List Char) : Option Int :=
  if cap = [] then some 0 else atoiDigits cap

/-- Lines 53-77 of src/main.go after the captures are known: each Atoi
error makes the function return 0 immediately; otherwise the result is
`hours*3600 + minutes*60 + seconds` in wrapping 64-bit arithmetic. -/
def groupsToSec (h m s : List Char) : Option Int :=
  match groupSec h with
  | none => some 0
  | some hv =>
    match groupSec m with
    | none => some 0
    | some mv =>
      match groupSec s with
      | none => some 0
      | some sv => some (wrap64 (wrap64 (wrap64 (hv * 3600) + wrap64 (mv * 60)) + sv))

/-- `getDurationSec` on the character list of the input.  `none` models
the Go panic (`matches[1]` on the `nil` slice returned when the pattern
does not match). -/
def goListDuration (cs : List Char) : Option Int :=
  match findPT cs with
  | none => none
  | some rest =>
    groupsToSec (parseGroups rest).1 (parseGroups rest).2.1 (parseGroups rest).2.2

/-- `getDurationSec` (src/main.go lines 49-78). -/
def getDurationSec (s : String) : Option Int :=
  goListDuration s.data

/-! ## Data model (src/main.go lines 23-39) -/

structure Video where
  id : String
  title : String
  description : String
  thumbnail : String
  duration : String
  durationSec : Int
deriving DecidableEq, Repr

structure Playlist where
  id : String
  title : String
  description : String
  thumbnail : String
  videos : List Video
  totalDurationSec : Int
deriving DecidableEq, Repr

/-! ## Remote service abstraction

The YouTube Data API client is abstracted as a record of the three
remote capabilities the pipeline uses (spec section 6).  `listPage` is
`PlaylistItems.List(...).PlaylistId(pid).MaxResults(50)[.PageToken(tok)].Do()`
as a function of the playlist id and the page token ("" meaning no
token); it returns the page's member video ids (`item.ContentDetails.VideoId`)
and the next-page token ("" meaning none).  `videosList` is
`Videos.List(...).Id(strings.Join(batch, ",")).Do()` as a function of the
batch of ids; each returned item carries the fields read on lines
138-146.  `playlistsList` is `Playlists.List(...).Id(pid).Do()`.
`Except.error` models a non-nil Go error. -/

structure PageResp where
  items : List String
  nextPageToken : String
deriving DecidableEq, Repr

structure VItem where
  id : String
  title : String
  description : String
  thumbnail : String
  duration : String
deriving DecidableEq, Repr

structure PItem where
  id : String
  title : String
  description : String
  thumbnail : String
deriving DecidableEq, Repr

structure Service where
  listPage : String → String → Except String PageResp
  videosList : List String → Except String (List VItem)
  playlistsList : String → Except String (List PItem)

/-- Result of a Go function run: a normal return value, a returned
non-nil error, a panic (`crash`, the duration parser indexing a nil
slice), or non-termination (`hang`, the pagination loop never reaching a
final page; reached only when the fuel bound runs out). -/
inductive Outcome (α : Type) where
  | ok : α → Outcome α
  | err : String → Outcome α
  | crash : Outcome α
  | hang : Outcome α
deriving DecidableEq, Repr

/-! ## Paginated item lister (src/main.go lines 86-115) -/

/-- The `for` loop of `getPlaylistVideos`: call `listPage` with the
current token; propagate a non-nil error; stop with the accumulated ids
if the page has no items; append the page's ids; stop if there is no
next-page token, else continue with it.  `fuel` bounds the number of
iterations; exhausting it models an infinite loop. -/
def fetchIds (svc : Service) (pid : String) : Nat → String → List String → Outcome (List String)
  | 0, _, _ => .hang
  | fuel + 1, tok, acc =>
    match svc.listPage pid tok with
    | .error e => .err e
    | .ok resp =>
      if resp.items = [] then .ok acc
      else if resp.nextPageToken = "" then .ok (acc ++ resp.items)
      else fetchIds svc pid fuel resp.nextPageToken (acc ++ resp.items)

/-! ## Batched detail fetcher (src/main.go lines 121-150) -/

/-- Consecutive slices `allVideoIDs[i:min(i+50, len)]` for
`i = 0, 50, 100, ...`, with a structural fuel argument (any
`fuel ≥ l.length` gives the batches of the Go loop). -/
def chunksF : Nat → List String → List (List String)
  | _, [] => []
  | 0, _ :: _ => []
  | fuel + 1, x :: xs => (x :: xs).take 50 :: chunksF fuel ((x :: xs).drop 50)

/-- The batches the Go loop on line 124 iterates over. -/
def chunks50 (l : List String) : List (List String) :=
  chunksF l.length l

/-- The inner loop on lines 138-149: one `Video` per item returned by
the detail call, appended in response order, with `DurationSec` parsed
by `getDurationSec` and `totalDurationSec` accumulated with wrapping Go
`int` addition.  A duration without `PT` makes `getDurationSec` panic,
crashing the whole request. -/
def buildVideos : List VItem → List Video → Int → Outcome (List Video × Int)
  | [], acc, tot => .ok (acc, tot)
  | it :: its, acc, tot =>
    match goListDuration it.duration.data with
    | none => .crash
    | some d =>
      buildVideos its
        (acc ++ [⟨it.id, it.title, it.description, it.thumbnail, it.duration, d⟩])
        (wrap64 (tot + d))

/-- The outer loop on lines 124-150: one `videosList` call per batch, in
batch order; a non-nil error aborts with the wrapped message of line 135. -/
def detailsFold (svc : Service) : List (List String) → List Video → Int → Outcome (List Video × Int)
  | [], acc, tot => .ok (acc, tot)
  | b :: bs, acc, tot =>
    match svc.videosList b with
    | .error e => .err ("error getting video details: " ++ e)
    | .ok its =>
      match buildVideos its acc tot with
      | .ok (acc2, tot2) => detailsFold svc bs acc2 tot2
      | .err e => .err e
      | .crash => .crash
      | .hang => .hang

/-- `getPlaylistVideos` (src/main.go lines 80-153).  The
`getYoutubeClient` call on line 81 only constructs the client from
configuration; its error path returns the error unchanged and is not a
remote call, so the client is taken as given here.  An empty id list
yields the EmptyPlaylist error of line 118. -/
def getPlaylistVideos (svc : Service) (pid : String) (fuel : Nat) : Outcome (List Video × Int) :=
  match fetchIds svc pid fuel "" [] with
  | .ok ids =>
    if ids = [] then .err "playlist is empty or private"
    else detailsFold svc (chunks50 ids) [] 0
  | .err e => .err e
  | .crash => .crash
  | .hang => .hang

/-- `analyzePlaylist` (src/main.go lines 155-186): metadata lookup, the
NotFound error of line 167 when it returns no items, then the member
pipeline, then the summary assembled from `response.Items[0]`. -/
def analyzePlaylist (svc : Service) (pid : String) (fuel : Nat) : Outcome Playlist :=
  match svc.playlistsList pid with
  | .error e => .err e
  | .ok [] => .err "playlist not found or private"
  | .ok (p :: _) =>
    match getPlaylistVideos svc pid fuel with
    | .ok (vids, tot) => .ok ⟨p.id, p.title, p.description, p.thumbnail, vids, tot⟩
    | .err e => .err e
    | .crash => .crash
    | .hang => .hang

/-! ## Identifier extractor (`getPlaylistId`, src/main.go lines 41-47)

`getPlaylistId` delegates to Go's `net/url`, which is not part of this
repository's sources; the fragment used here is modelled below. -/

/-- Modelled from the spec: section 4.2 says the extractor "returns the
value of a designated query parameter (the playlist identifier) or
empty if the URL does not parse or the parameter is absent".  The
missing code is Go's `net/url`: `url.Parse` rejects URLs containing an
ASCII control byte (below 0x20 or 0x7f); this is the error class the
model covers. -/
def urlParseErr (u : List Char) : Bool :=
  u.any fun c => c.toNat < 32 || c.toNat = 127

/-- Modelled from the spec (missing `net/url` code): `url.Parse` cuts
the fragment at the first `#`, then the raw query after the first `?`
of what remains. -/
def rawQuery (u : List Char) : List Char :=
  match (u.takeWhile (· ≠ '#')).dropWhile (· ≠ '?') with
  | [] => []
  | _ :: rest => rest

/-- Hexadecimal digit value, as `net/url`'s `unhex`. -/
def hexVal (c : Char) : Option Nat :=
  if '0' ≤ c ∧ c ≤ '9' then some (c.toNat - 48)
  else if 'a' ≤ c ∧ c ≤ 'f' then some (c.toNat - 87)
  else if 'A' ≤ c ∧ c ≤ 'F' then some (c.toNat - 70)
  else none

/-- Modelled from the spec (missing `net/url` code):
`url.QueryUnescape` — `%xy` decodes to the byte `0xy` (error on a bad
or truncated escape), `+` decodes to a space, everything else is
literal. -/
def unescapeQ : List Char → Option (List Char)
  | [] => some []
  | '%' :: a :: b :: rest =>
    match hexVal a, hexVal b with
    | some x, some y => (unescapeQ rest).map (fun r => Char.ofNat (16 * x + y) :: r)
    | _, _ => none
  | '%' :: _ => none
  | '+' :: rest => (unescapeQ rest).map (fun r => ' ' :: r)
  | c :: rest => (unescapeQ rest).map (fun r => c :: r)

/-- Split on a separator character, keeping empty segments (Go
`strings.Cut` driven loop of `url.ParseQuery`). -/
def splitOnChar (sep : Char) : List Char → List (List Char)
  | [] => [[]]
  | c :: rest =>
    if c = sep then [] :: splitOnChar sep rest
    else
      match splitOnChar sep rest with
      | [] => [[c]]
      | h :: t => (c :: h) :: t

/-- Split a `key=value` segment at the first `=` (absent `=` leaves the
value empty), as `strings.Cut(key, "=")`. -/
def cutEq (seg : List Char) : List Char × List Char :=
  (seg.takeWhile (· ≠ '='),
   match seg.dropWhile (· ≠ '=') with
   | [] => []
   | _ :: rest => rest)

/-- Modelled from the spec (missing `net/url` code): `url.ParseQuery` —
split the raw query on `&`; skip empty segments, segments containing a
semicolon, and segments whose key or value fails unescaping; keep the
remaining pairs in order. -/
def queryPairs (q : List Char) : List (List Char × List Char) :=
  (splitOnChar '&' q).filterMap fun seg =>
    if (';' ∈ seg) ∨ seg = [] then none
    else
      match unescapeQ (cutEq seg).1, unescapeQ (cutEq seg).2 with
      | some k, some v => some (k, v)
      | _, _ => none

/-- `url.Values.Get`: the first value recorded for the key, or the
empty string when the key is absent. -/
def queryGet (q : List Char) (key : List Char) : List Char :=
  match (queryPairs q).find? (fun p => p.1 = key) with
  | some p => p.2
  | none => []

/-- `getPlaylistId` (src/main.go lines 41-47): empty string when
`url.Parse` fails, else `Query().Get("list")`. -/
def getPlaylistId (u : String) : String :=
  if urlParseErr u.data then ""
  else String.mk (queryGet (rawQuery u.data) "list".data)

/-- The handler decision of src/main.go lines 280-286: an empty
extracted playlist id produces the "Invalid YouTube URL" client error;
otherwise the request proceeds to `analyzePlaylist` with that id. -/
inductive HandlerStep where
  | badRequest : String → HandlerStep
  | analyze : String → HandlerStep
deriving DecidableEq, Repr

/-- Lines 280-286 of src/main.go. -/
def routePlaylistURL (u : String) : HandlerStep :=
  if getPlaylistId u = "" then .badRequest "Invalid YouTube URL"
  else .analyze (getPlaylistId u)

/-! ## Characterization helpers -/

/-- A complete pagination run: the chain of page responses obtained by
following tokens from `tok`, where every page before the last had items
and a continuation token, and the last page had no items or no token. -/
def isRun (svc : Service) (pid : String) : String → List PageResp → Prop
  | _, [] => False
  | tok, [r] =>
    svc.listPage pid tok = .ok r ∧ (r.items = [] ∨ r.nextPageToken = "")
  | tok, r :: r2 :: rs =>
    svc.listPage pid tok = .ok r ∧ r.items ≠ [] ∧ r.nextPageToken ≠ "" ∧
      isRun svc pid r.nextPageToken (r2 :: rs)

/-- Sum of a list of Go `int` values with wrapping 64-bit addition, the
way `totalDurationSec += video.DurationSec` accumulates. -/
def wrapSum (ds : List Int) : Int :=
  ds.foldl (fun a d => wrap64 (a + d)) 0

/-- One optional unit group of a duration token: the digits followed by
the unit letter, or nothing. -/
def optGroup (o : Option (List Char)) (u : Char) : List Char :=
  match o with
  | none => []
  | some ds => ds ++ [u]

/-- The body of a duration token `PT{h}H{m}M{s}S` with any subset of the
three groups present. -/
def groupsList (hs ms ss : Option (List Char)) : List Char :=
  optGroup hs 'H' ++ optGroup ms 'M' ++ optGroup ss 'S'

/-- The capture an optional group yields: its digits, or the empty
capture. -/
def capOf (o : Option (List Char)) : List Char :=
  match o with
  | none => []
  | some ds => ds

/-- Numeric value of an optional group (omitted groups count zero). -/
def gval (o : Option (List Char)) : Nat :=
  match o with
  | none => 0
  | some ds => digitsVal ds

/-- A well-formed group: absent, or a non-empty string of decimal
digits. -/
def goodGroup : Option (List Char) → Prop
  | none => True
  | some ds => ds ≠ [] ∧ ∀ c ∈ ds, c.isDigit = true

/-! ## Concrete fixture services -/

/-- Member ids `v<a>, v<a+1>, ..., v<a+n-1>`. -/
def pageIds (a n : Nat) : List String :=
  (List.range' a n).map (fun i => "v" ++ toString i)

/-- A small healthy playlist: one listing page with two members, detail
items echoing the requested ids with durations `PT1M` and `PT30S`. -/
def svcOk : Service where
  listPage := fun _ tok =>
    if tok = "" then .ok ⟨["a", "b"], ""⟩ else .error "bad token"
  videosList := fun b =>
    .ok (b.map fun i => ⟨i, "", "", "", if i = "a" then "PT1M" else "PT30S"⟩)
  playlistsList := fun _ => .ok [⟨"pid", "T", "D", "Th"⟩]

/-- The summary `analyzePlaylist` produces for `svcOk`. -/
def plOk : Playlist :=
  ⟨"pid", "T", "D", "Th",
   [⟨"a", "", "", "", "PT1M", 60⟩, ⟨"b", "", "", "", "PT30S", 30⟩], 90⟩

/-- A playlist whose listing has no members at all. -/
def svcEmpty : Service where
  listPage := fun _ _ => .ok ⟨[], ""⟩
  videosList := fun _ => .ok []
  playlistsList := fun _ => .ok [⟨"pid", "T", "D", "Th"⟩]

/-- A service that fails on the second listing page. -/
def svcFail2 : Service where
  listPage := fun _ tok =>
    if tok = "" then .ok ⟨["a"], "t2"⟩ else .error "boom"
  videosList := fun b =>
    .ok (b.map fun i => ⟨i, "", "", "", "PT1S"⟩)
  playlistsList := fun _ => .ok [⟨"pid", "T", "D", "Th"⟩]

/-- A service whose first listing page has no items but does carry a
continuation token, and whose second page has a member. -/
def svcTokEmpty : Service where
  listPage := fun _ tok =>
    if tok = "" then .ok ⟨[], "t2"⟩
    else if tok = "t2" then .ok ⟨["a"], ""⟩
    else .error "bad token"
  videosList := fun b =>
    .ok (b.map fun i => ⟨i, "", "", "", "PT1S"⟩)
  playlistsList := fun _ => .ok [⟨"pid", "T", "D", "Th"⟩]

/-- A playlist of two videos whose durations are each the largest
signed 64-bit value, so that accumulating them overflows Go's `int`. -/
def svcBig : Service where
  listPage := fun _ tok =>
    if tok = "" then .ok ⟨["a", "b"], ""⟩ else .error "bad token"
  videosList := fun b =>
    .ok (b.map fun i => ⟨i, "", "", "", "PT9223372036854775807S"⟩)
  playlistsList := fun _ => .ok [⟨"pid", "T", "D", "Th"⟩]

/-- The summary `analyzePlaylist` produces for `svcBig`: the total has
wrapped to -2 although each member's `duration_sec` is 2^63 - 1. -/
def plBig : Playlist :=
  ⟨"pid", "T", "D", "Th",
   [⟨"a", "", "", "", "PT9223372036854775807S", 9223372036854775807⟩,
    ⟨"b", "", "", "", "PT9223372036854775807S", 9223372036854775807⟩], -2⟩

/-- A service that lists two members but returns the detail of only one
of them (as the real endpoint does for deleted or private videos). -/
def svcDrop : Service where
  listPage := fun _ tok =>
    if tok = "" then .ok ⟨["a", "b"], ""⟩ else .error "bad token"
  videosList := fun _ => .ok [⟨"a", "", "", "", "PT1S"⟩]
  playlistsList := fun _ => .ok [⟨"pid", "T", "D", "Th"⟩]

/-- The summary `analyzePlaylist` produces for `svcDrop`: one video for
two listed members. -/
def plDrop : Playlist :=
  ⟨"pid", "T", "D", "Th", [⟨"a", "", "", "", "PT1S", 1⟩], 1⟩

/-- A playlist of 120 members listed in three pages of 50, 50 and 20,
every video one second long. -/
def svc120 : Service where
  listPage := fun _ tok =>
    if tok = "" then .ok ⟨pageIds 0 50, "t2"⟩
    else if tok = "t2" then .ok ⟨pageIds 50 50, "t3"⟩
    else if tok = "t3" then .ok ⟨pageIds 100 20, ""⟩
    else .error "bad token"
  videosList := fun b =>
    .ok (b.map fun i => ⟨i, "", "", "", "PT1S"⟩)
  playlistsList := fun _ => .ok [⟨"pid", "T", "D", "Th"⟩]

/-- The videos `svc120` yields, in listing order. -/
def vids120 : List Video :=
  (pageIds 0 120).map fun i => ⟨i, "", "", "", "PT1S", 1⟩

/-! ## Lemmas about the duration parser -/

theorem takeWhile_append_of (p : Char → Bool) (ds t : List Char) (c : Char)
    (hds : ∀ x ∈ ds, p x = true) (hc : p c = false) :
    (ds ++ c :: t).takeWhile p = ds ∧ (ds ++ c :: t).dropWhile p = c :: t := by
  induction ds with
  | nil => simp [List.takeWhile_cons, List.dropWhile_cons, hc]
  | cons d ds ih =>
    have hd : p d = true := hds d (by simp)
    have ih2 := ih (fun x hx => hds x (by simp [hx]))
    simp [List.takeWhile_cons, List.dropWhile_cons, hd, ih2.1, ih2.2]

theorem matchGroup_hit (u : Char) (ds t : List Char)
    (hne : ds ≠ []) (hds : ∀ c ∈ ds, c.isDigit = true) (hu : u.isDigit = false) :
    matchGroup u (ds ++ u :: t) = (ds, t) := by
  obtain ⟨htake, hdrop⟩ := takeWhile_append_of Char.isDigit ds t u hds hu
  simp [matchGroup, hdrop, htake, hne]

theorem matchGroup_miss (u w : Char) (ds t : List Char)
    (hds : ∀ c ∈ ds, c.isDigit = true) (hw : w.isDigit = false) (hwu : w ≠ u) :
    matchGroup u (ds ++ w :: t) = ([], ds ++ w :: t) := by
  obtain ⟨htake, hdrop⟩ := takeWhile_append_of Char.isDigit ds t w hds hw
  simp [matchGroup, hdrop, htake, hwu]

theorem matchGroup_stop (u : Char) (cs : List Char)
    (h : cs.takeWhile Char.isDigit = []) :
    matchGroup u cs = ([], cs) := by
  cases cs with
  | nil => rfl
  | cons c r =>
    by_cases hc : c.isDigit
    · simp [List.takeWhile_cons, hc] at h
    · simp [matchGroup, List.dropWhile_cons, List.takeWhile_cons, hc]

theorem findPT_skip : ∀ (pre r : List Char), 'P' ∉ pre →
    findPT (pre ++ 'P' :: 'T' :: r) = some r
  | [], r, _ => by simp [findPT]
  | [c], r, h => by
    have hc : c ≠ 'P' := by intro hh; exact h (by simp [hh])
    simp [findPT, hc]
  | c :: d :: ds, r, h => by
    have hc : c ≠ 'P' := by intro hh; exact h (by simp [hh])
    have hds : 'P' ∉ d :: ds := by
      intro hh; exact h (List.mem_cons_of_mem _ hh)
    have ih := findPT_skip (d :: ds) r hds
    simp only [List.cons_append] at ih ⊢
    rw [findPT]
    simp [hc]
    simpa using ih

theorem groupStep (u : Char) (hu : u.isDigit = false) (o : Option (List Char))
    (rest : List Char) (hg : goodGroup o)
    (hrest : matchGroup u rest = ([], rest)) :
    matchGroup u (optGroup o u ++ rest) = (capOf o, rest) := by
  cases o with
  | none => simpa [optGroup, capOf] using hrest
  | some ds =>
    obtain ⟨hne, hds⟩ := hg
    have h := matchGroup_hit u ds rest hne hds hu
    simpa [optGroup, capOf, List.append_assoc] using h

theorem groupSkip (u w : Char) (o : Option (List Char)) (rest : List Char)
    (hg : goodGroup o) (hw : w.isDigit = false) (hwu : w ≠ u)
    (hrest : matchGroup u rest = ([], rest)) :
    matchGroup u (optGroup o w ++ rest) = ([], optGroup o w ++ rest) := by
  cases o with
  | none => simpa [optGroup] using hrest
  | some ds =>
    obtain ⟨hne, hds⟩ := hg
    have h := matchGroup_miss u w ds rest hds hw hwu
    simpa [optGroup, List.append_assoc] using h

theorem parseGroups_token (hs ms ss : Option (List Char)) (suf : List Char)
    (hh : goodGroup hs) (hm : goodGroup ms) (hsg : goodGroup ss)
    (hsuf : suf.takeWhile Char.isDigit = []) :
    parseGroups (groupsList hs ms ss ++ suf) = (capOf hs, capOf ms, capOf ss) := by
  have stopS : matchGroup 'S' suf = ([], suf) := matchGroup_stop 'S' suf hsuf
  have stopM : matchGroup 'M' suf = ([], suf) := matchGroup_stop 'M' suf hsuf
  have stopH : matchGroup 'H' suf = ([], suf) := matchGroup_stop 'H' suf hsuf
  have skipM : matchGroup 'M' (optGroup ss 'S' ++ suf) = ([], optGroup ss 'S' ++ suf) :=
    groupSkip 'M' 'S' ss suf hsg (by decide) (by decide) stopM
  have skipH : matchGroup 'H' (optGroup ms 'M' ++ (optGroup ss 'S' ++ suf)) =
      ([], optGroup ms 'M' ++ (optGroup ss 'S' ++ suf)) :=
    groupSkip 'H' 'M' ms (optGroup ss 'S' ++ suf) hm (by decide) (by decide)
      (groupSkip 'H' 'S' ss suf hsg (by decide) (by decide) stopH)
  have e1 : matchGroup 'H' (optGroup hs 'H' ++ (optGroup ms 'M' ++ (optGroup ss 'S' ++ suf))) =
      (capOf hs, optGroup ms 'M' ++ (optGroup ss 'S' ++ suf)) :=
    groupStep 'H' (by decide) hs _ hh skipH
  have e2 : matchGroup 'M' (optGroup ms 'M' ++ (optGroup ss 'S' ++ suf)) =
      (capOf ms, optGroup ss 'S' ++ suf) :=
    groupStep 'M' (by decide) ms _ hm skipM
  have e3 : matchGroup 'S' (optGroup ss 'S' ++ suf) = (capOf ss, suf) :=
    groupStep 'S' (by decide) ss suf hsg stopS
  have hL : groupsList hs ms ss ++ suf =
      optGroup hs 'H' ++ (optGroup ms 'M' ++ (optGroup ss 'S' ++ suf)) := by
    simp [groupsList, List.append_assoc]
  rw [parseGroups, hL, e1]
  dsimp only
  rw [e2]
  dsimp only
  rw [e3]

theorem wrap64_id (x : Int) (h0 : 0 ≤ x) (h1 : x ≤ int64Max) : wrap64 x = x := by
  unfold int64Max at h1
  unfold wrap64
  have hmod : (x + 9223372036854775808) % 18446744073709551616 =
      x + 9223372036854775808 := by
    apply Int.emod_eq_of_lt <;> omega
  omega

set_option maxRecDepth 4000 in
theorem groupsToSec_val (hs ms ss : Option (List Char))
    (btot : gval hs * 3600 + gval ms * 60 + gval ss ≤ 9223372036854775807) :
    groupsToSec (capOf hs) (capOf ms) (capOf ss) =
      some ((gval hs * 3600 + gval ms * 60 + gval ss : Nat) : Int) := by
  have bh : gval hs ≤ 9223372036854775807 := by omega
  have bm : gval ms ≤ 9223372036854775807 := by omega
  have bs1 : gval ss ≤ 9223372036854775807 := by omega
  have hgen : ∀ (o : Option (List Char)), gval o ≤ 9223372036854775807 →
      groupSec (capOf o) = some ((gval o : Nat) : Int) := by
    intro o hb
    cases o with
    | none => rfl
    | some ds =>
      by_cases hds : ds = []
      · subst hds; simp [capOf, groupSec, gval, digitsVal]
      · simp only [capOf, groupSec, gval] at *
        simp [hds, atoiDigits, hb]
  rw [groupsToSec, hgen hs bh]
  dsimp only
  rw [hgen ms bm]
  dsimp only
  rw [hgen ss bs1]
  dsimp only
  have nn : ∀ (o : Option (List Char)), (0 : Int) ≤ (gval o : Int) :=
    fun o => Nat.cast_nonneg _
  have w1 : wrap64 ((gval hs : Int) * 3600) = (gval hs : Int) * 3600 := by
    refine wrap64_id _ (mul_nonneg (nn hs) (by norm_num)) ?_
    unfold int64Max
    have h : gval hs * 3600 ≤ 9223372036854775807 := by omega
    exact_mod_cast h
  have w2 : wrap64 ((gval ms : Int) * 60) = (gval ms : Int) * 60 := by
    refine wrap64_id _ (mul_nonneg (nn ms) (by norm_num)) ?_
    unfold int64Max
    have h : gval ms * 60 ≤ 9223372036854775807 := by omega
    exact_mod_cast h
  rw [w1, w2]
  have w3 : wrap64 ((gval hs : Int) * 3600 + (gval ms : Int) * 60) =
      (gval hs : Int) * 3600 + (gval ms : Int) * 60 := by
    refine wrap64_id _
      (add_nonneg (mul_nonneg (nn hs) (by norm_num)) (mul_nonneg (nn ms) (by norm_num))) ?_
    unfold int64Max
    have h : gval hs * 3600 + gval ms * 60 ≤ 9223372036854775807 := by omega
    exact_mod_cast h
  rw [w3]
  have w4 : wrap64 ((gval hs : Int) * 3600 + (gval ms : Int) * 60 + (gval ss : Int)) =
      (gval hs : Int) * 3600 + (gval ms : Int) * 60 + (gval ss : Int) := by
    refine wrap64_id _
      (add_nonneg
        (add_nonneg (mul_nonneg (nn hs) (by norm_num)) (mul_nonneg (nn ms) (by norm_num)))
        (nn ss)) ?_
    unfold int64Max
    exact_mod_cast btot
  rw [w4]
  push_cast
  ring_nf

theorem goListDuration_token (pre suf : List Char) (hs ms ss : Option (List Char))
    (hpre : 'P' ∉ pre) (hsuf : suf.takeWhile Char.isDigit = [])
    (hh : goodGroup hs) (hm : goodGroup ms) (hsg : goodGroup ss) :
    goListDuration (pre ++ 'P' :: 'T' :: (groupsList hs ms ss ++ suf)) =
      groupsToSec (capOf hs) (capOf ms) (capOf ss) := by
  have h1 := findPT_skip pre (groupsList hs ms ss ++ suf) hpre
  have h2 := parseGroups_token hs ms ss suf hh hm hsg hsuf
  rw [goListDuration, h1]
  dsimp only
  rw [h2]

/-! ## Lemmas about the pagination loop -/

theorem fetchIds_run (svc : Service) (pid : String) :
    ∀ (fuel : Nat) (tok : String) (acc ids : List String),
      fetchIds svc pid fuel tok acc = .ok ids →
      ∃ rs, isRun svc pid tok rs ∧ ids = acc ++ (rs.map PageResp.items).flatten := by
  intro fuel
  induction fuel with
  | zero =>
    intro tok acc ids h
    exact absurd h (by simp [fetchIds])
  | succ fuel ih =>
    intro tok acc ids h
    rw [fetchIds] at h
    cases hsl : svc.listPage pid tok with
    | error e => rw [hsl] at h; exact absurd h (by simp)
    | ok resp =>
      rw [hsl] at h
      dsimp only at h
      by_cases hi : resp.items = []
      · rw [if_pos hi] at h
        refine ⟨[resp], ?_, ?_⟩
        · exact ⟨hsl, Or.inl hi⟩
        · cases h
          simp [hi]
      · rw [if_neg hi] at h
        by_cases ht : resp.nextPageToken = ""
        · rw [if_pos ht] at h
          refine ⟨[resp], ⟨hsl, Or.inr ht⟩, ?_⟩
          cases h
          simp
        · rw [if_neg ht] at h
          obtain ⟨rs, hrun, hids⟩ := ih resp.nextPageToken (acc ++ resp.items) ids h
          cases rs with
          | nil => exact absurd hrun (by simp [isRun])
          | cons r2 rs2 =>
            exact ⟨resp :: r2 :: rs2, ⟨hsl, hi, ht, hrun⟩, by simp [hids]⟩

theorem run_fetchIds (svc : Service) (pid : String) :
    ∀ (rs : List PageResp) (tok : String) (acc : List String) (fuel : Nat),
      isRun svc pid tok rs → rs.length ≤ fuel →
      fetchIds svc pid fuel tok acc = .ok (acc ++ (rs.map PageResp.items).flatten) := by
  intro rs
  induction rs with
  | nil =>
    intro tok acc fuel hrun
    exact absurd hrun (by simp [isRun])
  | cons r rs ih =>
    intro tok acc fuel hrun hlen
    cases fuel with
    | zero => simp at hlen
    | succ fuel =>
      cases rs with
      | nil =>
        obtain ⟨hcall, hstop⟩ := hrun
        rw [fetchIds, hcall]
        dsimp only
        rcases hstop with hi | ht
        · simp [hi]
        · by_cases hi : r.items = []
          · simp [hi]
          · simp [hi, ht]
      | cons r2 rs2 =>
        obtain ⟨hcall, hi, ht, hrun2⟩ := hrun
        rw [fetchIds, hcall]
        dsimp only
        rw [if_neg hi, if_neg ht]
        rw [ih r.nextPageToken (acc ++ r.items) fuel hrun2 (by simpa using Nat.le_of_succ_le_succ hlen)]
        simp

/-! ## Lemmas about batching -/

theorem chunksF_join :
    ∀ (fuel : Nat) (l : List String), l.length ≤ fuel → (chunksF fuel l).flatten = l := by
  intro fuel
  induction fuel with
  | zero =>
    intro l h
    cases l with
    | nil => rfl
    | cons x xs => simp at h
  | succ fuel ih =>
    intro l h
    cases l with
    | nil => rfl
    | cons x xs =>
      rw [chunksF]
      have hlen : ((x :: xs).drop 50).length ≤ fuel := by
        simp only [List.length_drop, List.length_cons]
        simp only [List.length_cons] at h
        omega
      simp only [List.flatten_cons]
      rw [ih ((x :: xs).drop 50) hlen]
      exact List.take_append_drop 50 (x :: xs)

theorem chunks50_join (l : List String) : (chunks50 l).flatten = l :=
  chunksF_join l.length l le_rfl

/-! ## Lemmas about the detail-fetch fold -/

theorem buildVideos_tot :
    ∀ (its : List VItem) (acc : List Video) (tot : Int) (acc2 : List Video) (tot2 : Int),
      buildVideos its acc tot = .ok (acc2, tot2) →
      tot = wrapSum (acc.map Video.durationSec) →
      tot2 = wrapSum (acc2.map Video.durationSec) := by
  intro its
  induction its with
  | nil =>
    intro acc tot acc2 tot2 h hinv
    rw [buildVideos] at h
    cases h
    exact hinv
  | cons it its ih =>
    intro acc tot acc2 tot2 h hinv
    rw [buildVideos] at h
    cases hd : goListDuration it.duration.data with
    | none => rw [hd] at h; exact absurd h (by simp)
    | some d =>
      rw [hd] at h
      dsimp only at h
      refine ih _ _ _ _ h ?_
      rw [hinv]
      simp [wrapSum, List.foldl_append]

theorem buildVideos_len :
    ∀ (its : List VItem) (acc : List Video) (tot : Int) (acc2 : List Video) (tot2 : Int),
      buildVideos its acc tot = .ok (acc2, tot2) →
      acc2.length = acc.length + its.length := by
  intro its
  induction its with
  | nil =>
    intro acc tot acc2 tot2 h
    rw [buildVideos] at h
    cases h
    simp
  | cons it its ih =>
    intro acc tot acc2 tot2 h
    rw [buildVideos] at h
    cases hd : goListDuration it.duration.data with
    | none => rw [hd] at h; exact absurd h (by simp)
    | some d =>
      rw [hd] at h
      dsimp only at h
      have := ih _ _ _ _ h
      simp only [List.length_append, List.length_cons, List.length_nil] at this ⊢
      omega

theorem detailsFold_tot (svc : Service) :
    ∀ (bs : List (List String)) (acc : List Video) (tot : Int) (vs : List Video) (t : Int),
      detailsFold svc bs acc tot = .ok (vs, t) →
      tot = wrapSum (acc.map Video.durationSec) →
      t = wrapSum (vs.map Video.durationSec) := by
  intro bs
  induction bs with
  | nil =>
    intro acc tot vs t h hinv
    rw [detailsFold] at h
    cases h
    exact hinv
  | cons b bs ih =>
    intro acc tot vs t h hinv
    rw [detailsFold] at h
    cases hv : svc.videosList b with
    | error e => rw [hv] at h; exact absurd h (by simp)
    | ok its =>
      rw [hv] at h
      dsimp only at h
      cases hb : buildVideos its acc tot with
      | ok r =>
        rw [hb] at h
        dsimp only at h
        exact ih _ _ _ _ h (buildVideos_tot its acc tot r.1 r.2 (by rw [hb]) hinv)
      | err e => rw [hb] at h; exact absurd h (by simp)
      | crash => rw [hb] at h; exact absurd h (by simp)
      | hang => rw [hb] at h; exact absurd h (by simp)

theorem detailsFold_len (svc : Service)
    (hcard : ∀ b its, svc.videosList b = .ok its → its.length = b.length) :
    ∀ (bs : List (List String)) (acc : List Video) (tot : Int) (vs : List Video) (t : Int),
      detailsFold svc bs acc tot = .ok (vs, t) →
      vs.length = acc.length + (bs.map List.length).sum := by
  intro bs
  induction bs with
  | nil =>
    intro acc tot vs t h
    rw [detailsFold] at h
    cases h
    simp
  | cons b bs ih =>
    intro acc tot vs t h
    rw [detailsFold] at h
    cases hv : svc.videosList b with
    | error e => rw [hv] at h; exact absurd h (by simp)
    | ok its =>
      rw [hv] at h
      dsimp only at h
      cases hb : buildVideos its acc tot with
      | ok r =>
        rw [hb] at h
        dsimp only at h
        have h1 := ih _ _ _ _ h
        have h2 := buildVideos_len its acc tot r.1 r.2 (by rw [hb])
        have h3 := hcard b its hv
        simp only [List.map_cons, List.sum_cons] at h1 ⊢
        omega
      | err e => rw [hb] at h; exact absurd h (by simp)
      | crash => rw [hb] at h; exact absurd h (by simp)
      | hang => rw [hb] at h; exact absurd h (by simp)

theorem detailsFold_calls (svc : Service) :
    ∀ (bs : List (List String)) (acc : List Video) (tot : Int) (r : List Video × Int),
      detailsFold svc bs acc tot = .ok r →
      ∀ b ∈ bs, ∃ its, svc.videosList b = .ok its := by
  intro bs
  induction bs with
  | nil =>
    intro acc tot r _ b hb
    simp at hb
  | cons b0 bs ih =>
    intro acc tot r h b hb
    rw [detailsFold] at h
    cases hv : svc.videosList b0 with
    | error e => rw [hv] at h; exact absurd h (by simp)
    | ok its =>
      rw [hv] at h
      dsimp only at h
      rcases List.mem_cons.mp hb with rfl | hb2
      · exact ⟨its, hv⟩
      · cases hbv : buildVideos its acc tot with
        | ok r2 =>
          rw [hbv] at h
          dsimp only at h
          exact ih _ _ _ h b hb2
        | err e => rw [hbv] at h; exact absurd h (by simp)
        | crash => rw [hbv] at h; exact absurd h (by simp)
        | hang => rw [hbv] at h; exact absurd h (by simp)

/-! ## Decomposition of successful runs -/

theorem gpv_ok_parts (svc : Service) (pid : String) (fuel : Nat) (vids : List Video) (tot : Int)
    (h : getPlaylistVideos svc pid fuel = .ok (vids, tot)) :
    ∃ ids, fetchIds svc pid fuel "" [] = .ok ids ∧ ids ≠ [] ∧
      detailsFold svc (chunks50 ids) [] 0 = .ok (vids, tot) := by
  rw [getPlaylistVideos] at h
  cases hf : fetchIds svc pid fuel "" [] with
  | ok ids =>
    rw [hf] at h
    dsimp only at h
    by_cases hi : ids = []
    · rw [if_pos hi] at h; exact absurd h (by simp)
    · rw [if_neg hi] at h; exact ⟨ids, rfl, hi, h⟩
  | err e => rw [hf] at h; exact absurd h (by simp)
  | crash => rw [hf] at h; exact absurd h (by simp)
  | hang => rw [hf] at h; exact absurd h (by simp)

theorem analyze_ok_parts (svc : Service) (pid : String) (fuel : Nat) (pl : Playlist)
    (h : analyzePlaylist svc pid fuel = .ok pl) :
    ∃ p ps, svc.playlistsList pid = .ok (p :: ps) ∧
      getPlaylistVideos svc pid fuel = .ok (pl.videos, pl.totalDurationSec) := by
  rw [analyzePlaylist] at h
  cases hp : svc.playlistsList pid with
  | error e => rw [hp] at h; exact absurd h (by simp)
  | ok pitems =>
    rw [hp] at h
    cases pitems with
    | nil => exact absurd h (by simp)
    | cons p ps =>
      dsimp only at h
      cases hg : getPlaylistVideos svc pid fuel with
      | ok r =>
        rw [hg] at h
        dsimp only at h
        refine ⟨p, ps, rfl, ?_⟩
        obtain ⟨vids, tot⟩ := r
        simp only at h
        cases h
        rfl
      | err e => rw [hg] at h; exact absurd h (by simp)
      | crash => rw [hg] at h; exact absurd h (by simp)
      | hang => rw [hg] at h; exact absurd h (by simp)

/-! ## Claim theorems -/

/-- C1 (counterexample): the claim that `total_duration_sec` equals the
plain integer sum of the `duration_sec` fields fails on the code: with
two members of 2^63 - 1 seconds each, the run succeeds and stores the
wrapped total -2 while the sum of the `duration_sec` fields is
2^64 - 2. -/
theorem c1_plain_sum_fails :
    analyzePlaylist svcBig "p" 3 = Outcome.ok plBig ∧
    plBig.totalDurationSec = -2 ∧
    (plBig.videos.map Video.durationSec).sum = 18446744073709551614 ∧
    plBig.totalDurationSec ≠ (plBig.videos.map Video.durationSec).sum :=
  ⟨by decide, by decide, by decide, by decide⟩

/-- C1 (amended): for every successful run of the pipeline, the
`total_duration_sec` field of the returned summary equals the sum of the
`duration_sec` fields of its videos computed with wrapping 64-bit
(`Go int`) addition — and hence the exact sum whenever no partial sum
overflows. -/
theorem c1_total_is_wrapped_sum (svc : Service) (pid : String) (fuel : Nat) (pl : Playlist)
    (h : analyzePlaylist svc pid fuel = .ok pl) :
    pl.totalDurationSec = wrapSum (pl.videos.map Video.durationSec) := by
  obtain ⟨p, ps, hp, hg⟩ := analyze_ok_parts svc pid fuel pl h
  obtain ⟨ids, hf, hne, hd⟩ := gpv_ok_parts svc pid fuel pl.videos pl.totalDurationSec hg
  exact detailsFold_tot svc (chunks50 ids) [] 0 pl.videos pl.totalDurationSec hd (by simp [wrapSum])

/-- C1 witness: the wrapped-sum invariant at a concrete healthy run. -/
theorem c1_total_is_wrapped_sum_witness :
    analyzePlaylist svcOk "p" 3 = Outcome.ok plOk ∧
    plOk.totalDurationSec = wrapSum (plOk.videos.map Video.durationSec) :=
  ⟨by decide, c1_total_is_wrapped_sum svcOk "p" 3 plOk (by decide)⟩

/-- C2 (counterexample): the claim quantifies over all non-negative
integers, but a 20-digit hour value (2^63) makes `strconv.Atoi` fail
with a range error and the whole parse returns 0 instead of
h*3600. -/
theorem c2_overflow_group_fails :
    getDurationSec "PT9223372036854775808H" = some 0 ∧
    (9223372036854775808 * 3600 : Int) ≠ 0 :=
  ⟨by decide, by decide⟩

/-- C2 (amended): for every valid duration token `PT{h}H{m}M{s}S` with
any subset of the three groups present, whose total seconds
h*3600 + m*60 + s fits a signed 64-bit integer, the parser returns
h*3600 + m*60 + s; omitted groups contribute zero, and `PT` with no
groups parses to 0 (the all-absent instance of this statement). -/
theorem c2_valid_token_value (hs ms ss : Option (List Char))
    (hh : goodGroup hs) (hm : goodGroup ms) (hsg : goodGroup ss)
    (btot : gval hs * 3600 + gval ms * 60 + gval ss ≤ 9223372036854775807) :
    getDurationSec (String.mk ('P' :: 'T' :: groupsList hs ms ss)) =
      some ((gval hs * 3600 + gval ms * 60 + gval ss : Nat) : Int) := by
  have h1 := goListDuration_token [] [] hs ms ss (by simp) rfl hh hm hsg
  have h2 := groupsToSec_val hs ms ss btot
  simp only [List.nil_append, List.append_nil] at h1
  show goListDuration ('P' :: 'T' :: groupsList hs ms ss) = _
  rw [h1, h2]

/-- C2 witness: `PT1H2M3S` parses to 3723 seconds. -/
theorem c2_valid_token_value_witness : getDurationSec "PT1H2M3S" = some 3723 := by
  have h := c2_valid_token_value (some ['1']) (some ['2']) (some ['3'])
    ⟨by decide, by decide⟩ ⟨by decide, by decide⟩ ⟨by decide, by decide⟩ (by decide)
  exact h

/-- C3 (code bug): the spec says the parse never raises an error, but
for any input not containing `PT` — for example the `P0D` duration the
platform returns for live or upcoming videos, or the empty string —
`FindStringSubmatch` returns `nil` and `matches[1]` panics with an
index-out-of-range runtime error (modelled as `none`). -/
theorem c3_parser_panics_without_pt :
    getDurationSec "P0D" = none ∧ getDurationSec "" = none :=
  ⟨by decide, by decide⟩

/-- C4: fail-fast error propagation. (1) A listing-page failure at any
pagination step makes `getPlaylistVideos` abort with exactly that
error; (2) a detail-fetch failure on the first chunk aborts with the
wrapped upstream error; (3) a member-pipeline error surfaces unchanged
from `analyzePlaylist`; (4) any successful summary required every
detail-fetch call on every chunk to have succeeded, so no partial video
list or summary is ever returned past a failed call. -/
theorem c4_failfast (svc : Service) (pid : String) (fuel : Nat) :
    (∀ e, fetchIds svc pid fuel "" [] = .err e → getPlaylistVideos svc pid fuel = .err e) ∧
    (∀ ids e b bs, fetchIds svc pid fuel "" [] = .ok ids → ids ≠ [] →
      chunks50 ids = b :: bs → svc.videosList b = .error e →
      getPlaylistVideos svc pid fuel = .err ("error getting video details: " ++ e)) ∧
    (∀ e p ps, svc.playlistsList pid = .ok (p :: ps) →
      getPlaylistVideos svc pid fuel = .err e → analyzePlaylist svc pid fuel = .err e) ∧
    (∀ pl, analyzePlaylist svc pid fuel = .ok pl →
      ∃ ids, fetchIds svc pid fuel "" [] = .ok ids ∧
        ∀ b ∈ chunks50 ids, ∃ its, svc.videosList b = .ok its) := by
  refine ⟨?_, ?_, ?_, ?_⟩
  · intro e he
    rw [getPlaylistVideos, he]
  · intro ids e b bs hf hne hc hv
    rw [getPlaylistVideos, hf]
    dsimp only
    rw [if_neg hne, hc, detailsFold, hv]
  · intro e p ps hp hg
    rw [analyzePlaylist, hp]
    dsimp only
    rw [hg]
  · intro pl h
    obtain ⟨p, ps, hp, hg⟩ := analyze_ok_parts svc pid fuel pl h
    obtain ⟨ids, hf, hne, hd⟩ := gpv_ok_parts svc pid fuel pl.videos pl.totalDurationSec hg
    exact ⟨ids, hf, fun b hb => detailsFold_calls svc (chunks50 ids) [] 0 _ hd b hb⟩

/-- C4 witness: a failure on the second listing page aborts the whole
aggregation with that error. -/
theorem c4_failfast_witness :
    getPlaylistVideos svcFail2 "p" 5 = Outcome.err "boom" ∧
    analyzePlaylist svcFail2 "p" 5 = Outcome.err "boom" := by
  have h := c4_failfast svcFail2 "p" 5
  have h1 := h.1 "boom" (by decide)
  exact ⟨h1, h.2.2.1 "boom" ⟨"pid", "T", "D", "Th"⟩ [] rfl h1⟩

/-- C5: a listing that yields zero members across all pages makes the
operation fail with the EmptyPlaylist error of line 118, which
propagates through `analyzePlaylist` (given the metadata lookup found
the playlist) and is a different message from the NotFound error of
line 167 — never a success with an empty list. -/
theorem c5_empty_listing_is_error (svc : Service) (pid : String) (fuel : Nat)
    (h : fetchIds svc pid fuel "" [] = .ok []) :
    getPlaylistVideos svc pid fuel = .err "playlist is empty or private" ∧
    (∀ p ps, svc.playlistsList pid = .ok (p :: ps) →
      analyzePlaylist svc pid fuel = .err "playlist is empty or private") ∧
    "playlist is empty or private" ≠ "playlist not found or private" := by
  have hg : getPlaylistVideos svc pid fuel = .err "playlist is empty or private" := by
    rw [getPlaylistVideos, h]
    rfl
  refine ⟨hg, fun p ps hp => ?_, by decide⟩
  rw [analyzePlaylist, hp]
  dsimp only
  rw [hg]

/-- C5 witness: the empty fixture playlist fails with EmptyPlaylist. -/
theorem c5_empty_listing_is_error_witness :
    analyzePlaylist svcEmpty "p" 3 = Outcome.err "playlist is empty or private" :=
  (c5_empty_listing_is_error svcEmpty "p" 3 (by decide)).2.1 ⟨"pid", "T", "D", "Th"⟩ [] rfl

/-- C6 (counterexample): the claim says the loop terminates only when a
response carries no continuation token; but on a service whose first
page has no items yet does carry token `t2`, the loop stops successfully
after that page and never accumulates the member listed on page two. -/
theorem c6_empty_page_with_token_stops :
    fetchIds svcTokEmpty "p" 9 "" [] = Outcome.ok [] ∧
    svcTokEmpty.listPage "p" "" = Except.ok ⟨[], "t2"⟩ ∧
    ("t2" : String) ≠ "" ∧
    svcTokEmpty.listPage "p" "t2" = Except.ok ⟨["a"], ""⟩ ∧
    ([] : List String) ≠ ["a"] :=
  ⟨by decide, rfl, by decide, rfl, by decide⟩

/-- C6 (amended): the lister keeps requesting pages exactly as long as
the previous response had a non-empty item list and carried a
continuation token; every successful result is the in-order
concatenation of the items of the pages of such a complete run, and
every complete run is reached with enough fuel. -/
theorem c6_pagination_characterized (svc : Service) (pid : String) :
    (∀ fuel ids, fetchIds svc pid fuel "" [] = .ok ids →
      ∃ rs, isRun svc pid "" rs ∧ ids = (rs.map PageResp.items).flatten) ∧
    (∀ rs fuel, isRun svc pid "" rs → rs.length ≤ fuel →
      fetchIds svc pid fuel "" [] = .ok ((rs.map PageResp.items).flatten)) := by
  constructor
  · intro fuel ids h
    obtain ⟨rs, hrun, hids⟩ := fetchIds_run svc pid fuel "" [] ids h
    exact ⟨rs, hrun, by simpa using hids⟩
  · intro rs fuel hrun hlen
    have h := run_fetchIds svc pid rs "" [] fuel hrun hlen
    simpa using h

/-- C6 witness: the healthy fixture's listing is characterized by a
one-page run. -/
theorem c6_pagination_characterized_witness :
    ∃ rs, isRun svcOk "p" "" rs ∧
      (["a", "b"] : List String) = (rs.map PageResp.items).flatten :=
  (c6_pagination_characterized svcOk "p").1 3 ["a", "b"] (by decide)

set_option maxRecDepth 10000 in
/-- C7: for a playlist of 120 members with the cap of 50, the listing
is a complete three-page run with page sizes 50, 50 and 20; the
detail-fetch batches are exactly the three consecutive chunks of sizes
50, 50 and 20 in chunk order; and the videos of the final result are in
remote listing order. -/
theorem c7_three_pages_three_batches :
    isRun svc120 "p" ""
      [⟨pageIds 0 50, "t2"⟩, ⟨pageIds 50 50, "t3"⟩, ⟨pageIds 100 20, ""⟩] ∧
    fetchIds svc120 "p" 5 "" [] = Outcome.ok (pageIds 0 120) ∧
    (pageIds 0 50).length = 50 ∧ (pageIds 50 50).length = 50 ∧
    (pageIds 100 20).length = 20 ∧
    chunks50 (pageIds 0 120) = [pageIds 0 50, pageIds 50 50, pageIds 100 20] ∧
    getPlaylistVideos svc120 "p" 5 = Outcome.ok (vids120, 120) ∧
    vids120.map Video.id = pageIds 0 120 :=
  ⟨⟨rfl, by decide, by decide, rfl, by decide, by decide, rfl, Or.inr rfl⟩,
    by decide, by decide, by decide, by decide, by decide, by decide, by decide⟩

/-- C8 (counterexample): the claim that the videos sequence length
equals the listed member count fails on the code: a service that lists
two members but returns only one detail item yields a successful
summary with one video for two members (the code never checks the
detail-response cardinality). -/
theorem c8_dropped_item_shrinks :
    fetchIds svcDrop "p" 3 "" [] = Outcome.ok ["a", "b"] ∧
    analyzePlaylist svcDrop "p" 3 = Outcome.ok plDrop ∧
    plDrop.videos.length = 1 ∧ (["a", "b"] : List String).length = 2 ∧
    plDrop.videos.length ≠ (["a", "b"] : List String).length :=
  ⟨by decide, by decide, by decide, by decide, by decide⟩

/-- C8 (amended): for every successful run in which each detail-fetch
call returns exactly one item per requested identifier, the videos
sequence length equals the member count accumulated across all listing
pages. -/
theorem c8_videos_length_eq_members (svc : Service) (pid : String) (fuel : Nat) (pl : Playlist)
    (h : analyzePlaylist svc pid fuel = .ok pl)
    (hcard : ∀ b its, svc.videosList b = .ok its → its.length = b.length) :
    ∃ ids, fetchIds svc pid fuel "" [] = .ok ids ∧ pl.videos.length = ids.length := by
  obtain ⟨p, ps, hp, hg⟩ := analyze_ok_parts svc pid fuel pl h
  obtain ⟨ids, hf, hne, hd⟩ := gpv_ok_parts svc pid fuel pl.videos pl.totalDurationSec hg
  refine ⟨ids, hf, ?_⟩
  have h1 := detailsFold_len svc hcard (chunks50 ids) [] 0 pl.videos pl.totalDurationSec hd
  have h2 : ((chunks50 ids).map List.length).sum = ids.length := by
    have h3 := chunks50_join ids
    calc ((chunks50 ids).map List.length).sum
        = (chunks50 ids).flatten.length := (List.length_flatten _).symm
      _ = ids.length := by rw [h3]
  simp only [List.length_nil] at h1
  omega

/-- C8 witness: on the healthy fixture the video count matches the
member count. -/
theorem c8_videos_length_eq_members_witness :
    ∃ ids, fetchIds svcOk "p" 3 "" [] = Outcome.ok ids ∧
      plOk.videos.length = ids.length := by
  refine c8_videos_length_eq_members svcOk "p" 3 plOk (by decide) ?_
  intro b its h
  have h' : Except.ok (b.map fun i =>
      (⟨i, "", "", "", if i = "a" then "PT1M" else "PT30S"⟩ : VItem)) = Except.ok its := h
  injection h' with h2
  rw [← h2, List.length_map]

/-- C9: the duration regex is anchored to neither end of the input: for
every input made of a prefix without `P`, a valid duration token, and a
suffix that starts with no digit, the parser reads the groups of the
first match and ignores the surrounding text rather than rejecting the
input. -/
theorem c9_unanchored_first_match (pre suf : List Char) (hs ms ss : Option (List Char))
    (hpre : 'P' ∉ pre) (hsuf : suf.takeWhile Char.isDigit = [])
    (hh : goodGroup hs) (hm : goodGroup ms) (hsg : goodGroup ss)
    (btot : gval hs * 3600 + gval ms * 60 + gval ss ≤ 9223372036854775807) :
    getDurationSec (String.mk (pre ++ 'P' :: 'T' :: (groupsList hs ms ss ++ suf))) =
      some ((gval hs * 3600 + gval ms * 60 + gval ss : Nat) : Int) := by
  have h1 := goListDuration_token pre suf hs ms ss hpre hsuf hh hm hsg
  have h2 := groupsToSec_val hs ms ss btot
  show goListDuration (pre ++ 'P' :: 'T' :: (groupsList hs ms ss ++ suf)) = _
  rw [h1, h2]

/-- C9 witness: `xxPT1M2Syy` yields 62. -/
theorem c9_unanchored_first_match_witness : getDurationSec "xxPT1M2Syy" = some 62 := by
  have h := c9_unanchored_first_match ['x', 'x'] ['y', 'y'] none (some ['1']) (some ['2'])
    (by decide) rfl True.intro ⟨by decide, by decide⟩ ⟨by decide, by decide⟩ (by decide)
  exact h

/-- C10: a URL whose query carries `list` with an empty value makes the
extractor return the empty string, and the handler then reports the
same "Invalid YouTube URL" client error as for a URL lacking the
parameter entirely: the two cases are indistinguishable at the public
interface. -/
theorem c10_empty_list_value_like_missing (u v : String)
    (hu : (queryPairs (rawQuery u.data)).find? (fun p => p.1 = "list".data) =
      some ("list".data, []))
    (hv : (queryPairs (rawQuery v.data)).find? (fun p => p.1 = "list".data) = none) :
    getPlaylistId u = "" ∧ getPlaylistId v = "" ∧
    routePlaylistURL u = .badRequest "Invalid YouTube URL" ∧
    routePlaylistURL u = routePlaylistURL v := by
  have hu2 : getPlaylistId u = "" := by
    rw [getPlaylistId]
    by_cases hc : urlParseErr u.data
    · rw [if_pos hc]
    · rw [if_neg hc, queryGet, hu]
  have hv2 : getPlaylistId v = "" := by
    rw [getPlaylistId]
    by_cases hc : urlParseErr v.data
    · rw [if_pos hc]
    · rw [if_neg hc, queryGet, hv]
  refine ⟨hu2, hv2, ?_, ?_⟩
  · rw [routePlaylistURL, if_pos hu2]
  · rw [routePlaylistURL, if_pos hu2, routePlaylistURL, if_pos hv2]

/-- C10 witness: `...playlist?list=` and `...playlist` produce the same
bad-request outcome. -/
theorem c10_empty_list_value_like_missing_witness :
    getPlaylistId "https://www.youtube.com/playlist?list=" = "" ∧
    getPlaylistId "https://www.youtube.com/playlist" = "" ∧
    routePlaylistURL "https://www.youtube.com/playlist?list=" =
      HandlerStep.badRequest "Invalid YouTube URL" ∧
    routePlaylistURL "https://www.youtube.com/playlist?list=" =
      routePlaylistURL "https://www.youtube.com/playlist" :=
  c10_empty_list_value_like_missing _ _ (by decide) (by decide)

end YTCalc
